import Mathlib

/-!
Shallow embedding of the WeatherService query-and-aggregation subsystem
(`src/server/index.js` and the server variant in `src/unnamed/part_000`).

Conventions of the embedding:
* JS numbers carried by observation records are modelled as exact rationals
  (ℚ); the one genuinely irrational quantity, the standard deviation, lives
  in ℝ via `Real.sqrt`.
* Instants are integers of milliseconds since the Unix epoch; the server
  process is taken to run with a UTC local clock, so `new Date("YYYY-MM-DD")`
  is UTC midnight of that day and `setHours(23, 59, 59, 999)` lands on
  `23:59:59.999` of the same UTC day.
* The MongoDB store is a list of records; `find` with a timestamp range is a
  filter, `sort({timestamp: 1})` is a sort that is non-decreasing in
  timestamps, and the `$group` accumulators `$avg`/`$min`/`$max`/`$sum`/
  `$stdDevPop`/`$push` are the corresponding exact reductions over the
  matched values.
-/

namespace WeatherService

/-- `VALID_FIELDS` from the source: the fixed set of queryable field names. -/
def VALID_FIELDS : List String := ["temperature", "humidity", "pressure"]

/-- JS truthiness of an optional string query parameter: an absent parameter
(`undefined`) and the empty string are falsy, every other string is truthy. -/
def truthy : Option String → Bool
  | none => false
  | some s => s != ""

/-- The string value a JS destructuring sees; only consulted under `truthy`. -/
def strVal : Option String → String
  | none => ""
  | some s => s

/-- One character of the `\d` regex class. -/
def isDigitCh (c : Char) : Bool := decide ('0' ≤ c) && decide (c ≤ '9')

/-- The regex test `^\d{4}-\d{2}-\d{2}$` over the raw string. -/
def matchesDatePattern (s : String) : Bool :=
  let cs := s.toList
  cs.length == 10 &&
  isDigitCh (cs.getD 0 ' ') && isDigitCh (cs.getD 1 ' ') &&
  isDigitCh (cs.getD 2 ' ') && isDigitCh (cs.getD 3 ' ') &&
  (cs.getD 4 ' ' == '-') &&
  isDigitCh (cs.getD 5 ' ') && isDigitCh (cs.getD 6 ' ') &&
  (cs.getD 7 ' ' == '-') &&
  isDigitCh (cs.getD 8 ' ') && isDigitCh (cs.getD 9 ' ')

/-- Numeric value of a decimal digit character. -/
def digitVal (c : Char) : Nat := c.toNat - 48

/-- The `YYYY` part of a pattern-matching date string. -/
def yearOf (s : String) : Nat :=
  let cs := s.toList
  1000 * digitVal (cs.getD 0 ' ') + 100 * digitVal (cs.getD 1 ' ') +
    10 * digitVal (cs.getD 2 ' ') + digitVal (cs.getD 3 ' ')

/-- The `MM` part of a pattern-matching date string. -/
def monthOf (s : String) : Nat :=
  let cs := s.toList
  10 * digitVal (cs.getD 5 ' ') + digitVal (cs.getD 6 ' ')

/-- The `DD` part of a pattern-matching date string. -/
def dayOf (s : String) : Nat :=
  let cs := s.toList
  10 * digitVal (cs.getD 8 ' ') + digitVal (cs.getD 9 ' ')

/-- Proleptic-Gregorian leap-year test, as used by ECMAScript dates. -/
def isLeap (y : Nat) : Bool := (y % 4 == 0 && y % 100 != 0) || y % 400 == 0

/-- Days in a month of a given year; `0` for month numbers outside `1..12`. -/
def daysInMonth (y m : Nat) : Nat :=
  match m with
  | 1 => 31
  | 2 => if isLeap y then 29 else 28
  | 3 => 31
  | 4 => 30
  | 5 => 31
  | 6 => 30
  | 7 => 31
  | 8 => 31
  | 9 => 30
  | 10 => 31
  | 11 => 30
  | 12 => 31
  | _ => 0

/-- Whether the digits of a pattern-matching string denote a real calendar
date: this is the check `new Date(dateString)` performs when it parses an
ISO `YYYY-MM-DD` string, yielding an Invalid Date (`NaN`) on out-of-range
month or day components. -/
def isRealCalendarDate (s : String) : Bool :=
  let m := monthOf s
  let d := dayOf s
  decide (1 ≤ m) && decide (m ≤ 12) && decide (1 ≤ d) &&
    decide (d ≤ daysInMonth (yearOf s) m)

/-- `isValidDate` from the source: the regex test followed by the
`new Date(...)`/`isNaN` round trip. -/
def isValidDate (s : String) : Bool :=
  matchesDatePattern s && isRealCalendarDate s

/-- Number of leap years among the years `0, 1, ..., y - 1`. -/
def leapsBefore (y : Nat) : Nat :=
  (y + 3) / 4 - (y + 99) / 100 + (y + 399) / 400

/-- Days from 0000-01-01 to the start of year `y` (proleptic Gregorian). -/
def daysBeforeYear (y : Nat) : Nat := 365 * y + leapsBefore y

/-- Days from the start of a common year to the start of month `m`;
`365` for month numbers beyond `12`. -/
def monthOffset (m : Nat) : Nat :=
  match m with
  | 0 => 0
  | 1 => 0
  | 2 => 31
  | 3 => 59
  | 4 => 90
  | 5 => 120
  | 6 => 151
  | 7 => 181
  | 8 => 212
  | 9 => 243
  | 10 => 273
  | 11 => 304
  | 12 => 334
  | _ => 365

/-- Day count of a calendar date from 0000-01-01 (proleptic Gregorian),
the day arithmetic behind ECMAScript `MakeDay`. -/
def dayNumber (y m d : Nat) : Nat :=
  daysBeforeYear y + monthOffset m +
    (if isLeap y && decide (3 ≤ m) then 1 else 0) + (d - 1)

/-- Day number of the Unix epoch 1970-01-01. -/
def EPOCH_DAY : Nat := dayNumber 1970 1 1

/-- Milliseconds per day. -/
def MS_PER_DAY : Int := 86400000

/-- `new Date(s).getTime()` for a valid `YYYY-MM-DD` string: UTC midnight of
that calendar day, in milliseconds since the Unix epoch. -/
def dateToMs (s : String) : Int :=
  MS_PER_DAY * ((dayNumber (yearOf s) (monthOf s) (dayOf s) : Int) - (EPOCH_DAY : Int))

/-- The instant produced by `new Date(end_date)` followed by
`setHours(23, 59, 59, 999)` under a UTC clock: the last millisecond of the
day. -/
def endOfDayMs (s : String) : Int := dateToMs s + 86399999

/-- An observation record of the `measurementSchema`. -/
structure Measurement where
  timestamp : Int
  temperature : ℚ
  humidity : ℚ
  pressure : ℚ
deriving DecidableEq

/-- Dynamic field access `m[field]`; both handlers reach it only after
`VALID_FIELDS.includes(field)` has succeeded, so the catch-all value is
never observed. -/
def getField (f : String) (m : Measurement) : ℚ :=
  if f == "temperature" then m.temperature
  else if f == "humidity" then m.humidity
  else if f == "pressure" then m.pressure
  else 0

/-- An `{error, message}` payload. -/
structure ErrBody where
  error : String
  message : String
deriving DecidableEq

/-- `VALID_FIELDS.join(", ")`. -/
def fieldsJoined : String := String.intercalate ", " VALID_FIELDS

def invalidFieldBody : ErrBody :=
  ⟨"Invalid field name", "Field must be one of: " ++ fieldsJoined⟩

def missingFieldBody : ErrBody :=
  ⟨"Missing field parameter", "Field is required. Must be one of: " ++ fieldsJoined⟩

def invalidStartBody : ErrBody :=
  ⟨"Invalid start_date format", "Date must be in YYYY-MM-DD format"⟩

def invalidEndBody : ErrBody :=
  ⟨"Invalid end_date format", "Date must be in YYYY-MM-DD format"⟩

def noDataBody : ErrBody :=
  ⟨"No data found", "No measurements found for the specified criteria"⟩

/-- The `dateFilter` object: optional `$gte` and `$lte` instants. -/
structure DateFilter where
  gte : Option Int
  lte : Option Int
deriving DecidableEq

/-- The `start_date`/`end_date` blocks that appear verbatim in both
handlers: each truthy parameter is validated and contributes its bound, a
falsy one contributes nothing. -/
def buildDateFilter (sd ed : Option String) : Except ErrBody DateFilter := do
  let g : Option Int ←
    if truthy sd then
      if isValidDate (strVal sd) then pure (some (dateToMs (strVal sd)))
      else throw invalidStartBody
    else pure none
  let l : Option Int ←
    if truthy ed then
      if isValidDate (strVal ed) then pure (some (endOfDayMs (strVal ed)))
      else throw invalidEndBody
    else pure none
  pure ⟨g, l⟩

/-- The Mongo range condition `{timestamp: dateFilter}`. When both bounds
are absent the source attaches no `timestamp` key at all; that matches
every record, exactly as the two-sided trivial condition does. -/
def matchesDF (df : DateFilter) (ts : Int) : Bool :=
  (match df.gte with
   | none => true
   | some g => decide (g ≤ ts)) &&
  (match df.lte with
   | none => true
   | some l => decide (ts ≤ l))

/-- The raw query parameters `req.query` destructures; `some ""` is a
parameter supplied with an empty value, `none` an absent one. -/
structure Query where
  field : Option String
  start_date : Option String
  end_date : Option String

/-- One element of a list response: a full record, or the
`{timestamp, [field]: value}` projection. -/
inductive ListItem
  | full (m : Measurement)
  | proj (timestamp : Int) (field : String) (value : ℚ)
deriving DecidableEq

/-- Outcome of the list endpoint: an error status with body, or a 200 with
the record sequence. -/
inductive ListResult
  | err (status : Nat) (body : ErrBody)
  | ok (items : List ListItem)
deriving DecidableEq

/-- Sort key of `.sort({ timestamp: 1 })`. -/
def tsLE (a b : Measurement) : Prop := a.timestamp ≤ b.timestamp

instance : DecidableRel tsLE := fun a b => Int.decLe a.timestamp b.timestamp

instance : IsTotal Measurement tsLE := ⟨fun a b => Int.le_total a.timestamp b.timestamp⟩

instance : IsTrans Measurement tsLE := ⟨fun _ _ _ h1 h2 => le_trans h1 h2⟩

/-- `GET /api/measurements` (both source copies are identical): field
validation, date validation, range scan sorted ascending by timestamp,
empty-result 404, then the optional single-field projection. -/
def listHandler (store : List Measurement) (q : Query) : ListResult :=
  if truthy q.field && !(VALID_FIELDS.contains (strVal q.field)) then
    .err 400 invalidFieldBody
  else
    match buildDateFilter q.start_date q.end_date with
    | .error e => .err 400 e
    | .ok df =>
      let measurements :=
        List.insertionSort tsLE (store.filter fun m => matchesDF df m.timestamp)
      if measurements.length == 0 then .err 404 noDataBody
      else if truthy q.field then
        .ok (measurements.map fun m =>
          .proj m.timestamp (strVal q.field) (getField (strVal q.field) m))
      else .ok (measurements.map .full)

/-- Mongo `$avg` over the matched values: their sum divided by their
number. -/
def aggAvg (vs : List ℚ) : ℚ := vs.sum / vs.length

/-- Mongo `$min` over a group of numeric values (`0` never observed: the
handlers only aggregate after at least one record matched). -/
def aggMin (vs : List ℚ) : ℚ :=
  match vs with
  | [] => 0
  | v :: rest => rest.foldl min v

/-- Mongo `$max` over a group of numeric values. -/
def aggMax (vs : List ℚ) : ℚ :=
  match vs with
  | [] => 0
  | v :: rest => rest.foldl max v

/-- The population variance `Σ (v − mean)² / n` underlying Mongo
`$stdDevPop`. -/
def popVariance (vs : List ℚ) : ℚ :=
  (vs.map fun v => (v - aggAvg vs) ^ 2).sum / vs.length

/-- Mongo `$stdDevPop`: the population standard deviation of the grouped
values. -/
noncomputable def stdDevPop (vs : List ℚ) : ℝ := Real.sqrt (popVariance vs)

/-- `calculateStdDev(values, mean)` from `src/unnamed/part_000`: square the
deviations from the supplied mean, average them, take the square root;
`0` on an empty value list. -/
noncomputable def calculateStdDev (vs : List ℚ) (mean : ℚ) : ℝ :=
  if vs.length = 0 then 0
  else
    Real.sqrt ((vs.map fun v : ℚ => ((v : ℝ) - (mean : ℝ)) ^ 2).sum / vs.length)

/-- JS `Math.round(x * 100) / 100` on an exact rational
(`Math.round` is floor of `x + 1/2`). -/
def round2 (q : ℚ) : ℚ := (⌊q * 100 + 1/2⌋ : ℚ) / 100

/-- JS `Math.round(x * 100) / 100` on a real. -/
noncomputable def round2R (x : ℝ) : ℝ := (⌊x * 100 + 1/2⌋ : ℝ) / 100

/-- Outcome of the metrics endpoint: an error status with body, or the
`{field, count, avg, min, max, stdDev}` payload (all four statistics
post-rounding, as the source rounds in the response expression). -/
inductive MetricsResult
  | err (status : Nat) (body : ErrBody)
  | ok (field : String) (count : Nat) (avg mn mx : ℚ) (stdDev : ℝ)

/-- `GET /api/measurements/metrics` as in `src/server/index.js`: the
`$stdDevPop` aggregation pipeline. `stdDev || 0` in the response only turns
the JS falsy values `null` (empty group — unreachable behind the 404 guard)
and `0` into `0`, so on the reachable branch it is the identity and is
modelled as such. -/
noncomputable def metricsHandlerAgg (store : List Measurement) (q : Query) : MetricsResult :=
  if !truthy q.field then .err 400 missingFieldBody
  else if !(VALID_FIELDS.contains (strVal q.field)) then .err 400 invalidFieldBody
  else
    match buildDateFilter q.start_date q.end_date with
    | .error e => .err 400 e
    | .ok df =>
      let matched := store.filter fun m => matchesDF df m.timestamp
      if matched.length == 0 then .err 404 noDataBody
      else
        let vs := matched.map (getField (strVal q.field))
        .ok (strVal q.field) matched.length (round2 (aggAvg vs)) (round2 (aggMin vs))
          (round2 (aggMax vs)) (round2R (stdDevPop vs))

/-- `GET /api/measurements/metrics` as in the `src/unnamed/part_000` server:
the pipeline `$push`es the raw values and the standard deviation is computed
locally by `calculateStdDev` at the Mongo-computed mean. -/
noncomputable def metricsHandlerLocal (store : List Measurement) (q : Query) : MetricsResult :=
  if !truthy q.field then .err 400 missingFieldBody
  else if !(VALID_FIELDS.contains (strVal q.field)) then .err 400 invalidFieldBody
  else
    match buildDateFilter q.start_date q.end_date with
    | .error e => .err 400 e
    | .ok df =>
      let matched := store.filter fun m => matchesDF df m.timestamp
      if matched.length == 0 then .err 404 noDataBody
      else
        let vs := matched.map (getField (strVal q.field))
        .ok (strVal q.field) matched.length (round2 (aggAvg vs)) (round2 (aggMin vs))
          (round2 (aggMax vs)) (round2R (calculateStdDev vs (aggAvg vs)))

/-- The list endpoint's validation conditions in one Boolean. -/
def listValid (q : Query) : Bool :=
  (!truthy q.field || VALID_FIELDS.contains (strVal q.field)) &&
  (!truthy q.start_date || isValidDate (strVal q.start_date)) &&
  (!truthy q.end_date || isValidDate (strVal q.end_date))

/-- The metrics endpoint's validation conditions in one Boolean. -/
def metricsValid (q : Query) : Bool :=
  truthy q.field && VALID_FIELDS.contains (strVal q.field) &&
  (!truthy q.start_date || isValidDate (strVal q.start_date)) &&
  (!truthy q.end_date || isValidDate (strVal q.end_date))

/-- The date filter a query with valid (or absent) dates denotes. -/
def queryFilter (q : Query) : DateFilter :=
  ⟨if truthy q.start_date then some (dateToMs (strVal q.start_date)) else none,
   if truthy q.end_date then some (endOfDayMs (strVal q.end_date)) else none⟩

/-- Chronological order on `YYYY-MM-DD` strings: lexicographic on the
parsed year, month, day. -/
def dateStrLt (a b : String) : Prop :=
  yearOf a < yearOf b
  ∨ (yearOf a = yearOf b ∧ monthOf a < monthOf b)
  ∨ (yearOf a = yearOf b ∧ monthOf a = monthOf b ∧ dayOf a < dayOf b)

instance (a b : String) : Decidable (dateStrLt a b) := by
  unfold dateStrLt
  infer_instance

/-- The field values of the records a query's range predicate matches, in
store order: what the `$group` stage aggregates. -/
def matchedValues (store : List Measurement) (q : Query) : List ℚ :=
  (store.filter fun m => matchesDF (queryFilter q) m.timestamp).map
    (getField (strVal q.field))

theorem buildDateFilter_ok (sd ed : Option String)
    (hs : truthy sd = false ∨ isValidDate (strVal sd) = true)
    (he : truthy ed = false ∨ isValidDate (strVal ed) = true) :
    buildDateFilter sd ed =
      .ok ⟨if truthy sd then some (dateToMs (strVal sd)) else none,
           if truthy ed then some (endOfDayMs (strVal ed)) else none⟩ := by
  rcases hs with hs | hs <;> rcases he with he | he <;>
    simp [buildDateFilter, hs, he, pure, Except.pure, bind, Except.bind] <;>
    cases hts : truthy sd <;> cases hte : truthy ed <;>
    simp_all [buildDateFilter, pure, Except.pure, bind, Except.bind]

theorem buildDateFilter_error (sd ed : Option String) (e : ErrBody)
    (h : buildDateFilter sd ed = .error e) :
    e = invalidStartBody ∨ e = invalidEndBody := by
  by_cases hts : truthy sd = true <;> by_cases hvs : isValidDate (strVal sd) = true <;>
    by_cases hte : truthy ed = true <;> by_cases hve : isValidDate (strVal ed) = true <;>
    simp_all [buildDateFilter, pure, Except.pure, throw, throwThe, MonadExceptOf.throw,
      Functor.map, Except.map, bind, Except.bind]

theorem buildDateFilter_error_of_bad_start (sd ed : Option String)
    (hts : truthy sd = true) (hvs : isValidDate (strVal sd) = false) :
    buildDateFilter sd ed = .error invalidStartBody := by
  simp [buildDateFilter, hts, hvs, pure, Except.pure, throw, throwThe, MonadExceptOf.throw,
    bind, Except.bind]

theorem buildDateFilter_error_of_bad_end (sd ed : Option String)
    (hs : truthy sd = false ∨ isValidDate (strVal sd) = true)
    (hte : truthy ed = true) (hve : isValidDate (strVal ed) = false) :
    buildDateFilter sd ed = .error invalidEndBody := by
  rcases hs with hs | hs <;>
    simp [buildDateFilter, hs, hte, hve, pure, Except.pure, throw, throwThe,
      MonadExceptOf.throw, Functor.map, Except.map, bind, Except.bind]

theorem listHandler_field_guard (store : List Measurement) (q : Query)
    (hf : truthy q.field = true) (hc : VALID_FIELDS.contains (strVal q.field) = false) :
    listHandler store q = .err 400 invalidFieldBody := by
  have hc' : strVal q.field ∉ VALID_FIELDS := by simpa using hc
  simp [listHandler, hf, hc']

theorem listHandler_ok_full (store : List Measurement) (q : Query)
    (h : truthy q.field = false) (items : List ListItem)
    (hc : listHandler store q = .ok items) : ∀ it ∈ items, ∃ m, it = .full m := by
  intro it hit
  unfold listHandler at hc
  rw [h] at hc
  simp only [Bool.false_and, Bool.false_eq_true, if_false] at hc
  split at hc
  · exact ListResult.noConfusion hc
  · split at hc
    · exact ListResult.noConfusion hc
    · injection hc with hc
      subst hc
      simp only [List.mem_map] at hit
      obtain ⟨m, _, hm⟩ := hit
      exact ⟨m, hm.symm⟩

theorem listHandler_not_invalidField (store : List Measurement) (q : Query)
    (h : truthy q.field = false) :
    listHandler store q ≠ .err 400 invalidFieldBody := by
  intro hc
  unfold listHandler at hc
  rw [h] at hc
  simp only [Bool.false_and, Bool.false_eq_true, if_false] at hc
  cases hdf : buildDateFilter q.start_date q.end_date with
  | error e =>
    rw [hdf] at hc
    simp only [ListResult.err.injEq, true_and] at hc
    rcases buildDateFilter_error q.start_date q.end_date e hdf with he | he <;>
      rw [he] at hc <;>
      simp [invalidStartBody, invalidEndBody, invalidFieldBody] at hc
  | ok df =>
    rw [hdf] at hc
    simp only [h] at hc
    split at hc
    · simp only [ListResult.err.injEq] at hc
      exact absurd hc.1 (by decide)
    · simp at hc

/-- C4: on the metrics endpoint, an absent `field` yields the
MissingField 400 error and a supplied field outside
{temperature, humidity, pressure} yields the InvalidField 400 error whose
message lists the valid set; the two error kinds are distinct; on the list
endpoint an absent field passes the field check (never producing
InvalidField) while an invalid one fails with InvalidField. A parameter is
"absent" when it is JS-falsy, i.e. missing or empty — the boundary
convention of `if (field)`. -/
theorem c4_field_validation :
    (∀ store q, truthy q.field = false →
      metricsHandlerAgg store q = .err 400 missingFieldBody)
    ∧ (∀ store q, truthy q.field = true →
        VALID_FIELDS.contains (strVal q.field) = false →
        metricsHandlerAgg store q = .err 400 invalidFieldBody)
    ∧ missingFieldBody.error ≠ invalidFieldBody.error
    ∧ invalidFieldBody.message = "Field must be one of: temperature, humidity, pressure"
    ∧ (∀ store q, truthy q.field = true →
        VALID_FIELDS.contains (strVal q.field) = false →
        listHandler store q = .err 400 invalidFieldBody)
    ∧ (∀ store q, truthy q.field = false →
        listHandler store q ≠ .err 400 invalidFieldBody) := by
  refine ⟨?_, ?_, by decide, by decide, ?_, ?_⟩
  · intro store q h
    simp [metricsHandlerAgg, h]
  · intro store q hf hc
    have hc' : strVal q.field ∉ VALID_FIELDS := by simpa using hc
    simp [metricsHandlerAgg, hf, hc']
  · exact fun store q hf hc => listHandler_field_guard store q hf hc
  · exact fun store q h => listHandler_not_invalidField store q h

theorem c4_field_validation_witness :
    metricsHandlerAgg [] ⟨none, none, none⟩ = .err 400 missingFieldBody
    ∧ metricsHandlerAgg [] ⟨some "wind", none, none⟩ = .err 400 invalidFieldBody
    ∧ listHandler [] ⟨some "wind", none, none⟩ = .err 400 invalidFieldBody
    ∧ listHandler [] ⟨none, none, none⟩ ≠ .err 400 invalidFieldBody :=
  ⟨c4_field_validation.1 [] ⟨none, none, none⟩ (by decide),
   c4_field_validation.2.1 [] ⟨some "wind", none, none⟩ (by decide) (by decide),
   c4_field_validation.2.2.2.2.1 [] ⟨some "wind", none, none⟩ (by decide) (by decide),
   c4_field_validation.2.2.2.2.2 [] ⟨none, none, none⟩ (by decide)⟩

/-- C10: an empty-string query parameter behaves exactly as an absent one:
on the list endpoint `field=` gives the same response as no `field`
(in particular unprojected full records on success, never InvalidField),
`start_date=` and `end_date=` give the same responses as the respective
absent bound (no range bound, no InvalidDateFormat), and on the metrics
endpoint `field=` yields MissingField, never InvalidField. -/
theorem c10_empty_params :
    (∀ store sd ed, listHandler store ⟨some "", sd, ed⟩ = listHandler store ⟨none, sd, ed⟩)
    ∧ (∀ store f ed, listHandler store ⟨f, some "", ed⟩ = listHandler store ⟨f, none, ed⟩)
    ∧ (∀ store f sd, listHandler store ⟨f, sd, some ""⟩ = listHandler store ⟨f, sd, none⟩)
    ∧ (∀ store sd ed items, listHandler store ⟨some "", sd, ed⟩ = .ok items →
        ∀ it ∈ items, ∃ m, it = .full m)
    ∧ (∀ store sd ed, metricsHandlerAgg store ⟨some "", sd, ed⟩ = .err 400 missingFieldBody)
    ∧ (∀ store sd ed, metricsHandlerAgg store ⟨some "", sd, ed⟩ ≠ .err 400 invalidFieldBody) := by
  refine ⟨fun store sd ed => rfl, fun store f ed => rfl, fun store f sd => rfl, ?_, ?_, ?_⟩
  · intro store sd ed items hc
    exact listHandler_ok_full store ⟨some "", sd, ed⟩ rfl items hc
  · intro store sd ed; rfl
  · intro store sd ed hc
    rw [show metricsHandlerAgg store ⟨some "", sd, ed⟩ = .err 400 missingFieldBody from rfl] at hc
    simp only [MetricsResult.err.injEq, true_and] at hc
    exact absurd hc (by decide)

theorem c10_empty_params_witness :
    listHandler [⟨0, 1, 2, 3⟩] ⟨some "", none, none⟩ = listHandler [⟨0, 1, 2, 3⟩] ⟨none, none, none⟩
    ∧ (∀ it ∈ [ListItem.full ⟨0, 1, 2, 3⟩], ∃ m, it = .full m)
    ∧ metricsHandlerAgg [] ⟨some "", none, none⟩ = .err 400 missingFieldBody :=
  ⟨c10_empty_params.1 [⟨0, 1, 2, 3⟩] none none,
   c10_empty_params.2.2.2.1 [⟨0, 1, 2, 3⟩] none none [ListItem.full ⟨0, 1, 2, 3⟩] (by decide),
   c10_empty_params.2.2.2.2.1 [] none none⟩

theorem metricsHandlerAgg_field_guard (store : List Measurement) (q : Query)
    (hf : truthy q.field = true) (hc : VALID_FIELDS.contains (strVal q.field) = false) :
    metricsHandlerAgg store q = .err 400 invalidFieldBody := by
  have hc' : strVal q.field ∉ VALID_FIELDS := by simpa using hc
  simp [metricsHandlerAgg, hf, hc']

theorem listHandler_date_error (store : List Measurement) (q : Query) (e : ErrBody)
    (hf : truthy q.field = false ∨ VALID_FIELDS.contains (strVal q.field) = true)
    (hdf : buildDateFilter q.start_date q.end_date = .error e) :
    listHandler store q = .err 400 e := by
  unfold listHandler
  rcases hf with hf | hf
  · simp [hf, hdf]
  · have hf' : strVal q.field ∈ VALID_FIELDS := by simpa using hf
    simp [hf', hdf]

theorem metricsHandlerAgg_date_error (store : List Measurement) (q : Query) (e : ErrBody)
    (hf : truthy q.field = true) (hv : VALID_FIELDS.contains (strVal q.field) = true)
    (hdf : buildDateFilter q.start_date q.end_date = .error e) :
    metricsHandlerAgg store q = .err 400 e := by
  have hv' : strVal q.field ∈ VALID_FIELDS := by simpa using hv
  simp [metricsHandlerAgg, hf, hv', hdf]

theorem bool_not_true {b : Bool} (h : ¬ b = true) : b = false := by
  cases b
  · rfl
  · exact absurd rfl h

theorem buildDateFilter_error_of_invalid (sd ed : Option String)
    (h : ¬ ((truthy sd = true → isValidDate (strVal sd) = true)
        ∧ (truthy ed = true → isValidDate (strVal ed) = true))) :
    ∃ e, buildDateFilter sd ed = .error e := by
  by_cases hts : truthy sd = true
  · by_cases hvs : isValidDate (strVal sd) = true
    · have hte : truthy ed = true := by
        by_contra hte
        exact h ⟨fun _ => hvs, fun he => absurd he hte⟩
      have hve : isValidDate (strVal ed) = false := by
        by_contra hve'
        exact h ⟨fun _ => hvs, fun _ => by
          cases hb : isValidDate (strVal ed)
          · exact absurd hb hve'
          · rfl⟩
      exact ⟨invalidEndBody, buildDateFilter_error_of_bad_end sd ed (Or.inr hvs) hte hve⟩
    · exact ⟨invalidStartBody,
        buildDateFilter_error_of_bad_start sd ed hts (bool_not_true hvs)⟩
  · have hts' : truthy sd = false := bool_not_true hts
    have hte : truthy ed = true := by
      by_contra hte
      exact h ⟨fun hs => absurd hs hts, fun he => absurd he hte⟩
    have hve : isValidDate (strVal ed) = false := by
      by_contra hve
      exact h ⟨fun hs => absurd hs hts, fun _ => by
        cases hb : isValidDate (strVal ed)
        · exact absurd hb hve
        · rfl⟩
    exact ⟨invalidEndBody, buildDateFilter_error_of_bad_end sd ed (Or.inl hts') hte hve⟩

/-- C9: a request that fails validation (invalid field, missing field on
metrics, malformed date) is answered with its 400 error by the boundary
alone: the response is one fixed error, identical for every store content,
so no scan or aggregation result ever influences it. (The embedded
handlers read the store through `find`/`aggregate` only; neither endpoint
has a write path, so the store state is unchanged by construction.) -/
theorem c9_validation_before_store :
    (∀ q, listValid q = false → ∃ e, ∀ store, listHandler store q = .err 400 e)
    ∧ (∀ q, metricsValid q = false → ∃ e, ∀ store, metricsHandlerAgg store q = .err 400 e) := by
  constructor
  · intro q hq
    by_cases hf : truthy q.field = true
    · by_cases hv : VALID_FIELDS.contains (strVal q.field) = true
      · have hd : ¬ ((truthy q.start_date = true → isValidDate (strVal q.start_date) = true)
            ∧ (truthy q.end_date = true → isValidDate (strVal q.end_date) = true)) := by
          intro hd
          have : listValid q = true := by
            simp only [listValid, Bool.and_eq_true, Bool.or_eq_true, Bool.not_eq_eq_eq_not,
              Bool.not_true]
            refine ⟨⟨Or.inr hv, ?_⟩, ?_⟩
            · cases hts : truthy q.start_date
              · exact Or.inl rfl
              · exact Or.inr (hd.1 hts)
            · cases hte : truthy q.end_date
              · exact Or.inl rfl
              · exact Or.inr (hd.2 hte)
          rw [this] at hq
          exact Bool.noConfusion hq
        obtain ⟨e, he⟩ := buildDateFilter_error_of_invalid q.start_date q.end_date hd
        exact ⟨e, fun store => listHandler_date_error store q e (Or.inr hv) he⟩
      · exact ⟨invalidFieldBody, fun store =>
          listHandler_field_guard store q hf (bool_not_true hv)⟩
    · have hf' : truthy q.field = false := bool_not_true hf
      have hd : ¬ ((truthy q.start_date = true → isValidDate (strVal q.start_date) = true)
          ∧ (truthy q.end_date = true → isValidDate (strVal q.end_date) = true)) := by
        intro hd
        have : listValid q = true := by
          simp only [listValid, Bool.and_eq_true, Bool.or_eq_true, Bool.not_eq_eq_eq_not,
            Bool.not_true]
          refine ⟨⟨Or.inl hf', ?_⟩, ?_⟩
          · cases hts : truthy q.start_date
            · exact Or.inl rfl
            · exact Or.inr (hd.1 hts)
          · cases hte : truthy q.end_date
            · exact Or.inl rfl
            · exact Or.inr (hd.2 hte)
        rw [this] at hq
        exact Bool.noConfusion hq
      obtain ⟨e, he⟩ := buildDateFilter_error_of_invalid q.start_date q.end_date hd
      exact ⟨e, fun store => listHandler_date_error store q e (Or.inl hf') he⟩
  · intro q hq
    by_cases hf : truthy q.field = true
    · by_cases hv : VALID_FIELDS.contains (strVal q.field) = true
      · have hd : ¬ ((truthy q.start_date = true → isValidDate (strVal q.start_date) = true)
            ∧ (truthy q.end_date = true → isValidDate (strVal q.end_date) = true)) := by
          intro hd
          have : metricsValid q = true := by
            simp only [metricsValid, Bool.and_eq_true, Bool.or_eq_true, Bool.not_eq_eq_eq_not,
              Bool.not_true]
            refine ⟨⟨⟨hf, hv⟩, ?_⟩, ?_⟩
            · cases hts : truthy q.start_date
              · exact Or.inl rfl
              · exact Or.inr (hd.1 hts)
            · cases hte : truthy q.end_date
              · exact Or.inl rfl
              · exact Or.inr (hd.2 hte)
          rw [this] at hq
          exact Bool.noConfusion hq
        obtain ⟨e, he⟩ := buildDateFilter_error_of_invalid q.start_date q.end_date hd
        exact ⟨e, fun store => metricsHandlerAgg_date_error store q e hf hv he⟩
      · exact ⟨invalidFieldBody, fun store =>
          metricsHandlerAgg_field_guard store q hf (bool_not_true hv)⟩
    · exact ⟨missingFieldBody, fun store => by
        simp [metricsHandlerAgg, bool_not_true hf]⟩

theorem c9_validation_before_store_witness :
    (∀ store, listHandler store ⟨some "wind", none, none⟩ =
      .err 400 invalidFieldBody)
    ∧ (∀ store, metricsHandlerAgg store ⟨some "temperature", some "bad", none⟩ =
      .err 400 invalidStartBody) := by
  constructor
  · obtain ⟨e, he⟩ := c9_validation_before_store.1 ⟨some "wind", none, none⟩ (by decide)
    have : e = invalidFieldBody := by
      have h0 := he []
      rw [listHandler_field_guard [] ⟨some "wind", none, none⟩ (by decide) (by decide)] at h0
      injection h0 with _ h0
      exact h0.symm
    exact this ▸ he
  · obtain ⟨e, he⟩ := c9_validation_before_store.2 ⟨some "temperature", some "bad", none⟩
      (by decide)
    have : e = invalidStartBody := by
      have h0 := he []
      rw [metricsHandlerAgg_date_error [] ⟨some "temperature", some "bad", none⟩
        invalidStartBody (by decide) (by decide)
        (buildDateFilter_error_of_bad_start _ _ (by decide) (by decide))] at h0
      injection h0 with _ h0
      exact h0.symm
    exact this ▸ he

theorem leapsBefore_succ (y : Nat) :
    leapsBefore (y + 1) = leapsBefore y + (if isLeap y then 1 else 0) := by
  have h : (isLeap y = true) ↔ ((y % 4 = 0 ∧ y % 100 ≠ 0) ∨ y % 400 = 0) := by
    unfold isLeap
    simp
  by_cases hl : isLeap y = true
  · rw [if_pos hl]
    have hm := h.mp hl
    unfold leapsBefore
    omega
  · rw [if_neg hl]
    have hm : ¬((y % 4 = 0 ∧ y % 100 ≠ 0) ∨ y % 400 = 0) := fun hc => hl (h.mpr hc)
    unfold leapsBefore
    omega

theorem daysBeforeYear_mono {y1 y2 : Nat} (h : y1 ≤ y2) :
    daysBeforeYear y1 ≤ daysBeforeYear y2 := by
  unfold daysBeforeYear leapsBefore
  omega

theorem monthStart_add_le (y : Nat) (m1 m2 : Nat) (h1 : 1 ≤ m1) (hlt : m1 < m2)
    (h2 : m2 ≤ 13) :
    monthOffset m1 + (if isLeap y && decide (3 ≤ m1) then 1 else 0) + daysInMonth y m1 ≤
      monthOffset m2 + (if isLeap y && decide (3 ≤ m2) then 1 else 0) := by
  have h12 : m1 ≤ 12 := by omega
  cases hb : isLeap y <;> interval_cases m1 <;> interval_cases m2 <;>
    simp [monthOffset, daysInMonth, hb]

theorem dayNumber_lt (y1 m1 d1 y2 m2 d2 : Nat)
    (hm1a : 1 ≤ m1) (hm1b : m1 ≤ 12) (hd1a : 1 ≤ d1) (hd1b : d1 ≤ daysInMonth y1 m1)
    (hm2a : 1 ≤ m2) (hm2b : m2 ≤ 12) (hd2a : 1 ≤ d2)
    (hlt : y1 < y2 ∨ (y1 = y2 ∧ m1 < m2) ∨ (y1 = y2 ∧ m1 = m2 ∧ d1 < d2)) :
    dayNumber y1 m1 d1 < dayNumber y2 m2 d2 := by
  rcases hlt with hy | ⟨hy, hm⟩ | ⟨hy, hm, hd⟩
  · -- strictly earlier year: the whole of year y1 ends before year y2 starts
    have hin : monthOffset m1 + (if isLeap y1 && decide (3 ≤ m1) then 1 else 0) + daysInMonth y1 m1 ≤
        monthOffset 13 + (if isLeap y1 && decide (3 ≤ 13) then 1 else 0) :=
      monthStart_add_le y1 m1 13 hm1a (by omega) (by omega)
    have h13 : monthOffset 13 = 365 := rfl
    have hstep : daysBeforeYear (y1 + 1) =
        daysBeforeYear y1 + 365 + (if isLeap y1 then 1 else 0) := by
      unfold daysBeforeYear
      rw [leapsBefore_succ]
      ring
    have hmono : daysBeforeYear (y1 + 1) ≤ daysBeforeYear y2 := daysBeforeYear_mono (by omega)
    have hge : daysBeforeYear y2 ≤ dayNumber y2 m2 d2 := by
      unfold dayNumber
      omega
    unfold dayNumber
    cases hb : isLeap y1 <;> simp [hb] at hin hstep ⊢ <;> omega
  · -- same year, strictly earlier month
    subst hy
    have hin := monthStart_add_le y1 m1 m2 hm1a hm (by omega)
    unfold dayNumber
    omega
  · -- same year and month, strictly earlier day
    subst hy
    subst hm
    unfold dayNumber
    omega

theorem isValidDate_parts (s : String) (h : isValidDate s = true) :
    1 ≤ monthOf s ∧ monthOf s ≤ 12 ∧ 1 ≤ dayOf s ∧
      dayOf s ≤ daysInMonth (yearOf s) (monthOf s) := by
  unfold isValidDate isRealCalendarDate at h
  simp only [Bool.and_eq_true, decide_eq_true_eq] at h
  exact ⟨h.2.1.1.1, h.2.1.1.2, h.2.1.2, h.2.2⟩

/-- A strictly earlier valid calendar date starts at least one full day
earlier on the millisecond timeline. -/
theorem dateToMs_gap (a b : String) (hva : isValidDate a = true)
    (hvb : isValidDate b = true) (hlt : dateStrLt a b) :
    dateToMs a + MS_PER_DAY ≤ dateToMs b := by
  obtain ⟨ha1, ha2, ha3, ha4⟩ := isValidDate_parts a hva
  obtain ⟨hb1, hb2, hb3, hb4⟩ := isValidDate_parts b hvb
  have hdn : dayNumber (yearOf a) (monthOf a) (dayOf a) <
      dayNumber (yearOf b) (monthOf b) (dayOf b) :=
    dayNumber_lt _ _ _ _ _ _ ha1 ha2 ha3 ha4 hb1 hb2 hb3 hlt
  unfold dateToMs MS_PER_DAY
  have : (dayNumber (yearOf a) (monthOf a) (dayOf a) : Int) + 1 ≤
      (dayNumber (yearOf b) (monthOf b) (dayOf b) : Int) := by exact_mod_cast hdn
  nlinarith [this]

theorem listValid_parts (q : Query) (h : listValid q = true) :
    (truthy q.field = false ∨ VALID_FIELDS.contains (strVal q.field) = true)
    ∧ (truthy q.start_date = false ∨ isValidDate (strVal q.start_date) = true)
    ∧ (truthy q.end_date = false ∨ isValidDate (strVal q.end_date) = true) := by
  unfold listValid at h
  simp only [Bool.and_eq_true, Bool.or_eq_true, Bool.not_eq_true'] at h
  exact ⟨h.1.1, h.1.2, h.2⟩

theorem metricsValid_parts (q : Query) (h : metricsValid q = true) :
    truthy q.field = true ∧ VALID_FIELDS.contains (strVal q.field) = true
    ∧ (truthy q.start_date = false ∨ isValidDate (strVal q.start_date) = true)
    ∧ (truthy q.end_date = false ∨ isValidDate (strVal q.end_date) = true) := by
  unfold metricsValid at h
  simp only [Bool.and_eq_true, Bool.or_eq_true, Bool.not_eq_true'] at h
  exact ⟨h.1.1.1, h.1.1.2, h.1.2, h.2⟩

theorem buildDateFilter_ok_of_valid (q : Query)
    (hs : truthy q.start_date = false ∨ isValidDate (strVal q.start_date) = true)
    (he : truthy q.end_date = false ∨ isValidDate (strVal q.end_date) = true) :
    buildDateFilter q.start_date q.end_date = .ok (queryFilter q) :=
  buildDateFilter_ok q.start_date q.end_date hs he

/-- C3: a supplied valid `end_date` contributes the inclusive upper bound
23:59:59.999 of its calendar day — the last millisecond before the next day
— so every record timestamped anywhere within that day satisfies the range
predicate; a supplied valid `start_date` contributes the inclusive first
instant of its day; an absent bound leaves that side of the range
unbounded. -/
theorem c3_date_bounds :
    (∀ sd ed : Option String,
      (truthy sd = false ∨ isValidDate (strVal sd) = true) →
      (truthy ed = false ∨ isValidDate (strVal ed) = true) →
      buildDateFilter sd ed = .ok
        ⟨if truthy sd then some (dateToMs (strVal sd)) else none,
         if truthy ed then some (endOfDayMs (strVal ed)) else none⟩)
    ∧ (∀ e : String, endOfDayMs e = dateToMs e + MS_PER_DAY - 1)
    ∧ (∀ (e : String) (ts : Int), dateToMs e ≤ ts → ts < dateToMs e + MS_PER_DAY →
        matchesDF ⟨none, some (endOfDayMs e)⟩ ts = true)
    ∧ (∀ (s : String) (ts : Int),
        matchesDF ⟨some (dateToMs s), none⟩ ts = true ↔ dateToMs s ≤ ts)
    ∧ (∀ ts : Int, matchesDF ⟨none, none⟩ ts = true) := by
  refine ⟨?_, ?_, ?_, ?_, ?_⟩
  · intro sd ed hs he
    exact buildDateFilter_ok sd ed hs he
  · intro e
    unfold endOfDayMs MS_PER_DAY
    omega
  · intro e ts h1 h2
    have hle : ts ≤ endOfDayMs e := by
      unfold endOfDayMs
      unfold MS_PER_DAY at h2
      omega
    simp [matchesDF, hle]
  · intro s ts
    simp [matchesDF]
  · intro ts
    rfl

theorem c3_date_bounds_witness :
    buildDateFilter (some "2025-01-01") (some "2025-01-02") = .ok
      ⟨some (dateToMs "2025-01-01"), some (endOfDayMs "2025-01-02")⟩
    ∧ matchesDF ⟨none, some (endOfDayMs "2025-01-02")⟩ (dateToMs "2025-01-02" + 86399999) = true
    ∧ (matchesDF ⟨some (dateToMs "2025-01-01"), none⟩ (dateToMs "2025-01-01") = true ↔
        dateToMs "2025-01-01" ≤ dateToMs "2025-01-01") :=
  ⟨c3_date_bounds.1 (some "2025-01-01") (some "2025-01-02") (Or.inr (by decide))
      (Or.inr (by decide)),
   c3_date_bounds.2.2.1 "2025-01-02" (dateToMs "2025-01-02" + 86399999) (by decide) (by decide),
   c3_date_bounds.2.2.2.1 "2025-01-01" (dateToMs "2025-01-01")⟩

/-- C2: a validated query whose range predicate matches no stored record
yields the 404 "No measurements found for the specified criteria" outcome
on both endpoints — in particular the predicate matches nothing whenever
`start_date` names a strictly later calendar day than `end_date`, and both
endpoints answer 404 on an empty store. -/
theorem c2_no_data_found :
    (∀ store q, listValid q = true →
      (store.filter fun m => matchesDF (queryFilter q) m.timestamp) = [] →
      listHandler store q = .err 404 noDataBody)
    ∧ (∀ store q, metricsValid q = true →
      (store.filter fun m => matchesDF (queryFilter q) m.timestamp) = [] →
      metricsHandlerAgg store q = .err 404 noDataBody)
    ∧ (∀ q, truthy q.start_date = true → truthy q.end_date = true →
        isValidDate (strVal q.start_date) = true → isValidDate (strVal q.end_date) = true →
        dateStrLt (strVal q.end_date) (strVal q.start_date) →
        ∀ ts, matchesDF (queryFilter q) ts = false)
    ∧ (∀ q, listValid q = true → listHandler [] q = .err 404 noDataBody)
    ∧ (∀ q, metricsValid q = true → metricsHandlerAgg [] q = .err 404 noDataBody) := by
  have hlist : ∀ store q, listValid q = true →
      (store.filter fun m => matchesDF (queryFilter q) m.timestamp) = [] →
      listHandler store q = .err 404 noDataBody := by
    intro store q hq hfil
    obtain ⟨hf, hs, he⟩ := listValid_parts q hq
    have hdf := buildDateFilter_ok_of_valid q hs he
    unfold listHandler
    rcases hf with hf | hf
    · simp [hf, hdf, hfil]
    · have hf' : strVal q.field ∈ VALID_FIELDS := by simpa using hf
      simp [hf', hdf, hfil]
  have hmetrics : ∀ store q, metricsValid q = true →
      (store.filter fun m => matchesDF (queryFilter q) m.timestamp) = [] →
      metricsHandlerAgg store q = .err 404 noDataBody := by
    intro store q hq hfil
    obtain ⟨hf, hv, hs, he⟩ := metricsValid_parts q hq
    have hdf := buildDateFilter_ok_of_valid q hs he
    have hv' : strVal q.field ∈ VALID_FIELDS := by simpa using hv
    simp [metricsHandlerAgg, hf, hv', hdf, hfil]
  refine ⟨hlist, hmetrics, ?_, ?_, ?_⟩
  · intro q hts hte hvs hve hlt ts
    have hgap := dateToMs_gap (strVal q.end_date) (strVal q.start_date) hve hvs hlt
    unfold queryFilter matchesDF
    rw [if_pos hts, if_pos hte]
    simp only [Bool.and_eq_false_iff, decide_eq_false_iff_not, not_le]
    by_cases hg : dateToMs (strVal q.start_date) ≤ ts
    · right
      unfold endOfDayMs
      unfold MS_PER_DAY at hgap
      omega
    · left
      omega
  · intro q hq
    exact hlist [] q hq rfl
  · intro q hq
    exact hmetrics [] q hq rfl

theorem c2_no_data_found_witness :
    listHandler [⟨dateToMs "2025-01-01", 1, 2, 3⟩]
      ⟨none, some "2025-01-02", some "2025-01-01"⟩ = .err 404 noDataBody
    ∧ (∀ ts, matchesDF (queryFilter ⟨none, some "2025-01-02", some "2025-01-01"⟩) ts = false)
    ∧ metricsHandlerAgg [] ⟨some "temperature", none, none⟩ = .err 404 noDataBody :=
  ⟨c2_no_data_found.1 [⟨dateToMs "2025-01-01", 1, 2, 3⟩]
      ⟨none, some "2025-01-02", some "2025-01-01"⟩ (by decide) (by decide),
   c2_no_data_found.2.2.1 ⟨none, some "2025-01-02", some "2025-01-01"⟩
      (by decide) (by decide) (by decide) (by decide) (by decide),
   c2_no_data_found.2.2.2.2 ⟨some "temperature", none, none⟩ (by decide)⟩

/-- C6: for a validated list query whose range predicate matches at least
one record, the response is 200 with exactly the matching records - as a
permutation of the store scan - arranged non-decreasing by timestamp, each
projected to `{timestamp, field}` when a field was supplied and returned
whole otherwise. -/
theorem c6_list_sorted_projected (store : List Measurement) (q : Query)
    (hq : listValid q = true)
    (hne : (store.filter fun m => matchesDF (queryFilter q) m.timestamp) ≠ []) :
    ∃ ms : List Measurement,
      ms.Perm (store.filter fun m => matchesDF (queryFilter q) m.timestamp)
      ∧ ms.Sorted tsLE
      ∧ listHandler store q =
          .ok (if truthy q.field then
                ms.map fun m => .proj m.timestamp (strVal q.field) (getField (strVal q.field) m)
              else ms.map .full) := by
  obtain ⟨hf, hs, he⟩ := listValid_parts q hq
  have hdf := buildDateFilter_ok_of_valid q hs he
  refine ⟨List.insertionSort tsLE (store.filter fun m => matchesDF (queryFilter q) m.timestamp),
    List.perm_insertionSort tsLE _, List.sorted_insertionSort tsLE _, ?_⟩
  have hlen : ((List.insertionSort tsLE
      (store.filter fun m => matchesDF (queryFilter q) m.timestamp)).length == 0) = false := by
    have hp := (List.perm_insertionSort tsLE
      (store.filter fun m => matchesDF (queryFilter q) m.timestamp)).length_eq
    simp only [beq_eq_false_iff_ne, ne_eq]
    rw [hp]
    intro h0
    exact hne (List.length_eq_zero.mp h0)
  have hex : ∃ x ∈ store, matchesDF (queryFilter q) x.timestamp = true := by
    simpa using hne
  unfold listHandler
  rcases hf with hf | hf
  · simp [hf, hdf, hlen, hex]
  · have hf' : strVal q.field ∈ VALID_FIELDS := by simpa using hf
    by_cases htf : truthy q.field = true
    · simp [htf, hf', hdf, hlen, hex]
    · have htf' : truthy q.field = false := bool_not_true htf
      simp [htf', hdf, hlen, hex]

theorem c6_list_sorted_projected_witness :
    ∃ ms : List Measurement,
      ms.Perm ([⟨5, 10, 20, 30⟩, ⟨1, 11, 21, 31⟩].filter
        fun m => matchesDF (queryFilter ⟨none, none, none⟩) m.timestamp)
      ∧ ms.Sorted tsLE
      ∧ listHandler [⟨5, 10, 20, 30⟩, ⟨1, 11, 21, 31⟩] ⟨none, none, none⟩ =
          .ok (if truthy (Query.mk none none none).field then
                ms.map fun m => .proj m.timestamp (strVal (Query.mk none none none).field)
                  (getField (strVal (Query.mk none none none).field) m)
              else ms.map .full) :=
  c6_list_sorted_projected [⟨5, 10, 20, 30⟩, ⟨1, 11, 21, 31⟩] ⟨none, none, none⟩
    (by decide) (by decide)

theorem foldl_min_le_init (l : List ℚ) (a : ℚ) : l.foldl min a ≤ a := by
  induction l generalizing a with
  | nil => simp
  | cons x xs ih => exact le_trans (ih (min a x)) (min_le_left a x)

theorem foldl_min_le_mem (l : List ℚ) (a v : ℚ) (hv : v ∈ l) : l.foldl min a ≤ v := by
  induction l generalizing a with
  | nil => cases hv
  | cons x xs ih =>
    rcases List.mem_cons.mp hv with rfl | hv
    · exact le_trans (foldl_min_le_init xs (min a v)) (min_le_right a v)
    · exact ih (min a x) hv

theorem init_le_foldl_max (l : List ℚ) (a : ℚ) : a ≤ l.foldl max a := by
  induction l generalizing a with
  | nil => simp
  | cons x xs ih => exact le_trans (le_max_left a x) (ih (max a x))

theorem mem_le_foldl_max (l : List ℚ) (a v : ℚ) (hv : v ∈ l) : v ≤ l.foldl max a := by
  induction l generalizing a with
  | nil => cases hv
  | cons x xs ih =>
    rcases List.mem_cons.mp hv with rfl | hv
    · exact le_trans (le_max_right a v) (init_le_foldl_max xs (max a v))
    · exact ih (max a x) hv

theorem aggMin_le_of_mem (vs : List ℚ) (v : ℚ) (hv : v ∈ vs) : aggMin vs ≤ v := by
  cases vs with
  | nil => cases hv
  | cons x xs =>
    rcases List.mem_cons.mp hv with rfl | hv
    · exact foldl_min_le_init xs v
    · exact foldl_min_le_mem xs x v hv

theorem le_aggMax_of_mem (vs : List ℚ) (v : ℚ) (hv : v ∈ vs) : v ≤ aggMax vs := by
  cases vs with
  | nil => cases hv
  | cons x xs =>
    rcases List.mem_cons.mp hv with rfl | hv
    · exact init_le_foldl_max xs v
    · exact mem_le_foldl_max xs x v hv

theorem mul_len_le_sum (vs : List ℚ) (c : ℚ) (h : ∀ v ∈ vs, c ≤ v) :
    c * vs.length ≤ vs.sum := by
  induction vs with
  | nil => simp
  | cons x xs ih =>
    have h1 := h x (List.mem_cons_self x xs)
    have h2 := ih fun v hv => h v (List.mem_cons_of_mem x hv)
    simp only [List.sum_cons, List.length_cons]
    push_cast
    linarith

theorem sum_le_mul_len (vs : List ℚ) (c : ℚ) (h : ∀ v ∈ vs, v ≤ c) :
    vs.sum ≤ c * vs.length := by
  induction vs with
  | nil => simp
  | cons x xs ih =>
    have h1 := h x (List.mem_cons_self x xs)
    have h2 := ih fun v hv => h v (List.mem_cons_of_mem x hv)
    simp only [List.sum_cons, List.length_cons]
    push_cast
    linarith

theorem aggMin_le_aggAvg (vs : List ℚ) (h : vs ≠ []) : aggMin vs ≤ aggAvg vs := by
  have hlen : (0 : ℚ) < vs.length := by
    have := List.length_pos.mpr h
    exact_mod_cast this
  unfold aggAvg
  rw [le_div_iff₀ hlen]
  exact mul_len_le_sum vs (aggMin vs) fun v hv => aggMin_le_of_mem vs v hv

theorem aggAvg_le_aggMax (vs : List ℚ) (h : vs ≠ []) : aggAvg vs ≤ aggMax vs := by
  have hlen : (0 : ℚ) < vs.length := by
    have := List.length_pos.mpr h
    exact_mod_cast this
  unfold aggAvg
  rw [div_le_iff₀ hlen]
  exact sum_le_mul_len vs (aggMax vs) fun v hv => le_aggMax_of_mem vs v hv

theorem round2_mono {a b : ℚ} (h : a ≤ b) : round2 a ≤ round2 b := by
  unfold round2
  have hf : (⌊a * 100 + 1/2⌋ : ℤ) ≤ ⌊b * 100 + 1/2⌋ := Int.floor_le_floor (by linarith)
  have : ((⌊a * 100 + 1/2⌋ : ℤ) : ℚ) ≤ ((⌊b * 100 + 1/2⌋ : ℤ) : ℚ) := by exact_mod_cast hf
  linarith

theorem round2R_nonneg {x : ℝ} (h : 0 ≤ x) : 0 ≤ round2R x := by
  unfold round2R
  have hf : (0 : ℤ) ≤ ⌊x * 100 + 1/2⌋ := Int.floor_nonneg.mpr (by linarith)
  have : (0 : ℝ) ≤ ((⌊x * 100 + 1/2⌋ : ℤ) : ℝ) := by exact_mod_cast hf
  linarith

theorem metricsHandlerAgg_valid_eq (store : List Measurement) (q : Query)
    (hq : metricsValid q = true)
    (hne : (store.filter fun m => matchesDF (queryFilter q) m.timestamp) ≠ []) :
    metricsHandlerAgg store q =
      .ok (strVal q.field)
        (store.filter fun m => matchesDF (queryFilter q) m.timestamp).length
        (round2 (aggAvg (matchedValues store q))) (round2 (aggMin (matchedValues store q)))
        (round2 (aggMax (matchedValues store q))) (round2R (stdDevPop (matchedValues store q))) := by
  obtain ⟨hf, hv, hs, he⟩ := metricsValid_parts q hq
  have hdf := buildDateFilter_ok_of_valid q hs he
  have hv' : strVal q.field ∈ VALID_FIELDS := by simpa using hv
  have hex : ∃ x ∈ store, matchesDF (queryFilter q) x.timestamp = true := by
    simpa using hne
  unfold metricsHandlerAgg matchedValues
  simp [hf, hv', hdf, hex]

/-- C7: over a non-empty matched value set the aggregates satisfy
min ≤ avg ≤ max and stdDev ≥ 0, these inequalities survive the
`round(x * 100) / 100` step, and the metrics response carries exactly those
rounded values, so the returned payload satisfies them as well. -/
theorem c7_metrics_inequalities (store : List Measurement) (q : Query)
    (hq : metricsValid q = true)
    (hne : (store.filter fun m => matchesDF (queryFilter q) m.timestamp) ≠ []) :
    (aggMin (matchedValues store q) ≤ aggAvg (matchedValues store q)
      ∧ aggAvg (matchedValues store q) ≤ aggMax (matchedValues store q)
      ∧ 0 ≤ stdDevPop (matchedValues store q))
    ∧ (round2 (aggMin (matchedValues store q)) ≤ round2 (aggAvg (matchedValues store q))
      ∧ round2 (aggAvg (matchedValues store q)) ≤ round2 (aggMax (matchedValues store q))
      ∧ 0 ≤ round2R (stdDevPop (matchedValues store q)))
    ∧ metricsHandlerAgg store q =
        .ok (strVal q.field)
          (store.filter fun m => matchesDF (queryFilter q) m.timestamp).length
          (round2 (aggAvg (matchedValues store q))) (round2 (aggMin (matchedValues store q)))
          (round2 (aggMax (matchedValues store q))) (round2R (stdDevPop (matchedValues store q))) := by
  have hvs : matchedValues store q ≠ [] := by
    unfold matchedValues
    simpa using hne
  have h1 := aggMin_le_aggAvg (matchedValues store q) hvs
  have h2 := aggAvg_le_aggMax (matchedValues store q) hvs
  have h3 : 0 ≤ stdDevPop (matchedValues store q) := Real.sqrt_nonneg _
  exact ⟨⟨h1, h2, h3⟩, ⟨round2_mono h1, round2_mono h2, round2R_nonneg h3⟩,
    metricsHandlerAgg_valid_eq store q hq hne⟩

theorem c7_metrics_inequalities_witness :
    aggMin (matchedValues [⟨0, 3, 7, 9⟩, ⟨1, 5, 8, 6⟩] ⟨some "temperature", none, none⟩) ≤
      aggAvg (matchedValues [⟨0, 3, 7, 9⟩, ⟨1, 5, 8, 6⟩] ⟨some "temperature", none, none⟩)
    ∧ aggAvg (matchedValues [⟨0, 3, 7, 9⟩, ⟨1, 5, 8, 6⟩] ⟨some "temperature", none, none⟩) ≤
      aggMax (matchedValues [⟨0, 3, 7, 9⟩, ⟨1, 5, 8, 6⟩] ⟨some "temperature", none, none⟩)
    ∧ 0 ≤ stdDevPop (matchedValues [⟨0, 3, 7, 9⟩, ⟨1, 5, 8, 6⟩] ⟨some "temperature", none, none⟩) :=
  (c7_metrics_inequalities [⟨0, 3, 7, 9⟩, ⟨1, 5, 8, 6⟩] ⟨some "temperature", none, none⟩
    (by decide) (by decide)).1

theorem sum_map_sq_cast (vs : List ℚ) (μ : ℚ) :
    (vs.map fun v : ℚ => ((v : ℝ) - (μ : ℝ)) ^ 2).sum =
      (((vs.map fun v => (v - μ) ^ 2).sum : ℚ) : ℝ) := by
  induction vs with
  | nil => simp
  | cons v rest ih =>
    simp only [List.map_cons, List.sum_cons, ih]
    push_cast
    ring

/-- On a non-empty value list, the local reduction at the Mongo-computed
mean coincides exactly with the store-side population standard deviation. -/
theorem calculateStdDev_eq_stdDevPop (vs : List ℚ) (h : vs ≠ []) :
    calculateStdDev vs (aggAvg vs) = stdDevPop vs := by
  unfold calculateStdDev stdDevPop popVariance
  rw [if_neg (by simpa using h)]
  congr 1
  rw [sum_map_sq_cast vs (aggAvg vs)]
  push_cast
  ring

theorem metricsHandlers_ext (store : List Measurement) (q : Query) :
    metricsHandlerAgg store q = metricsHandlerLocal store q := by
  unfold metricsHandlerAgg metricsHandlerLocal
  by_cases hf : truthy q.field = true
  · by_cases hv : strVal q.field ∈ VALID_FIELDS
    · cases hdf : buildDateFilter q.start_date q.end_date with
      | error e => simp [hf, hv, hdf]
      | ok df =>
        by_cases hm : ((store.filter fun m => matchesDF df m.timestamp).length == 0) = true
        · simp [hf, hv, hdf, hm]
        · have hm' : ((store.filter fun m => matchesDF df m.timestamp).length == 0) = false :=
            bool_not_true hm
          have hvs : ((store.filter fun m => matchesDF df m.timestamp).map
              (getField (strVal q.field))) ≠ [] := by
            simp only [ne_eq, List.map_eq_nil_iff]
            intro h0
            rw [h0] at hm'
            simp at hm'
          have hsd := calculateStdDev_eq_stdDevPop
            ((store.filter fun m => matchesDF df m.timestamp).map (getField (strVal q.field))) hvs
          simp [hf, hv, hdf, hm', hsd]
    · simp [hf, hv]
  · simp [bool_not_true hf]

/-- C1: for every store content and validated metrics query matching at
least one record, delegating avg/min/max/population-stddev to the
`$stdDevPop` pipeline and pulling the raw values to reduce locally with
`calculateStdDev` yield identical responses — count, avg, min, max and the
2-decimal-rounded stdDev all agree. -/
theorem c1_aggregation_equivalence (store : List Measurement) (q : Query)
    (_hq : metricsValid q = true)
    (_hne : (store.filter fun m => matchesDF (queryFilter q) m.timestamp) ≠ []) :
    metricsHandlerAgg store q = metricsHandlerLocal store q :=
  metricsHandlers_ext store q

theorem c1_aggregation_equivalence_witness :
    metricsHandlerAgg [⟨0, 3, 7, 9⟩, ⟨1, 5, 8, 6⟩] ⟨some "humidity", none, none⟩ =
      metricsHandlerLocal [⟨0, 3, 7, 9⟩, ⟨1, 5, 8, 6⟩] ⟨some "humidity", none, none⟩ :=
  c1_aggregation_equivalence [⟨0, 3, 7, 9⟩, ⟨1, 5, 8, 6⟩] ⟨some "humidity", none, none⟩
    (by decide) (by decide)

theorem floor_sqrt_200_3 : (⌊Real.sqrt ((200 : ℝ)/3) * 100 + 1/2⌋ : ℤ) = 816 := by
  have h1 : (8.155 : ℝ) ≤ Real.sqrt (200/3) := Real.le_sqrt_of_sq_le (by norm_num)
  have h2 : Real.sqrt ((200 : ℝ)/3) < 8.165 := (Real.sqrt_lt' (by norm_num)).mpr (by norm_num)
  have h3 : (816 : ℤ) ≤ ⌊Real.sqrt ((200 : ℝ)/3) * 100 + 1/2⌋ := by
    apply Int.le_floor.mpr
    push_cast
    nlinarith
  have h4 : (⌊Real.sqrt ((200 : ℝ)/3) * 100 + 1/2⌋ : ℤ) < 817 := by
    apply Int.floor_lt.mpr
    push_cast
    nlinarith
  omega

/-- C8: on a store holding exactly the three records of 2025-01-01,
2025-01-02 and 2025-01-03 with temperatures 10, 20 and 30, the metrics
query for `temperature` with no date bounds answers
`{field: "temperature", count: 3, avg: 20, min: 10, max: 30, stdDev: 8.16}`. -/
theorem c8_three_record_scenario :
    metricsHandlerAgg
      [⟨dateToMs "2025-01-01", 10, 0, 0⟩, ⟨dateToMs "2025-01-02", 20, 0, 0⟩,
       ⟨dateToMs "2025-01-03", 30, 0, 0⟩]
      ⟨some "temperature", none, none⟩ =
      .ok "temperature" 3 20 10 30 (8.16 : ℝ) := by
  rw [metricsHandlerAgg_valid_eq _ _ (by decide) (by decide)]
  have hvals : matchedValues
      [⟨dateToMs "2025-01-01", 10, 0, 0⟩, ⟨dateToMs "2025-01-02", 20, 0, 0⟩,
       ⟨dateToMs "2025-01-03", 30, 0, 0⟩] ⟨some "temperature", none, none⟩ =
      [10, 20, 30] := by decide
  rw [hvals]
  have hsd : round2R (stdDevPop [10, 20, 30]) = (8.16 : ℝ) := by
    have hvar : popVariance [10, 20, 30] = 200/3 := by
      norm_num [popVariance, aggAvg, List.sum_cons, List.sum_nil, List.map_cons, List.map_nil]
    unfold stdDevPop round2R
    rw [hvar]
    rw [show (((200 : ℚ)/3 : ℚ) : ℝ) = (200 : ℝ)/3 by push_cast; ring]
    rw [floor_sqrt_200_3]
    norm_num
  have hlen : ([⟨dateToMs "2025-01-01", 10, 0, 0⟩, ⟨dateToMs "2025-01-02", 20, 0, 0⟩,
      ⟨dateToMs "2025-01-03", 30, 0, 0⟩].filter fun m : Measurement =>
        matchesDF (queryFilter ⟨some "temperature", none, none⟩) m.timestamp).length = 3 := by
    decide
  have hmin : aggMin [(10 : ℚ), 20, 30] = 10 := by norm_num [aggMin, List.foldl, min_def]
  have hmax : aggMax [(10 : ℚ), 20, 30] = 30 := by norm_num [aggMax, List.foldl, max_def]
  have havg : aggAvg [(10 : ℚ), 20, 30] = 20 := by
    norm_num [aggAvg, List.sum_cons, List.sum_nil]
  rw [hlen, hsd, hmin, hmax, havg]
  norm_num [round2]
  rfl

/-- C5 counterexample: a list request supplying both an invalid field and a
malformed `start_date` is answered with the InvalidField error — not the
InvalidDateFormat error the claim promises for every request carrying a
malformed supplied bound — because the field check runs first. -/
theorem c5_counterexample :
    truthy (some "2025-99-99") = true
    ∧ isValidDate "2025-99-99" = false
    ∧ listHandler [] ⟨some "wind", some "2025-99-99", none⟩ = .err 400 invalidFieldBody
    ∧ invalidFieldBody ≠ invalidStartBody
    ∧ invalidFieldBody ≠ invalidEndBody := by
  refine ⟨rfl, by decide, ?_, by decide, by decide⟩
  exact listHandler_field_guard [] ⟨some "wind", some "2025-99-99", none⟩ (by decide) (by decide)

/-- C5 (amended): provided the request passes the field check (and, for
`end_date`, the `start_date` check), a supplied non-empty `start_date` or
`end_date` that fails the `YYYY-MM-DD` pattern or does not denote a real
calendar date is answered 400 with the InvalidDateFormat error naming that
bound, on both endpoints; and a request whose supplied dates are all valid
is never answered with an InvalidDateFormat error. -/
theorem c5_date_validation :
    (∀ store q, (truthy q.field = false ∨ VALID_FIELDS.contains (strVal q.field) = true) →
      truthy q.start_date = true → isValidDate (strVal q.start_date) = false →
      listHandler store q = .err 400 invalidStartBody)
    ∧ (∀ store q, (truthy q.field = false ∨ VALID_FIELDS.contains (strVal q.field) = true) →
      (truthy q.start_date = false ∨ isValidDate (strVal q.start_date) = true) →
      truthy q.end_date = true → isValidDate (strVal q.end_date) = false →
      listHandler store q = .err 400 invalidEndBody)
    ∧ (∀ store q, truthy q.field = true → VALID_FIELDS.contains (strVal q.field) = true →
      truthy q.start_date = true → isValidDate (strVal q.start_date) = false →
      metricsHandlerAgg store q = .err 400 invalidStartBody)
    ∧ (∀ store q, truthy q.field = true → VALID_FIELDS.contains (strVal q.field) = true →
      (truthy q.start_date = false ∨ isValidDate (strVal q.start_date) = true) →
      truthy q.end_date = true → isValidDate (strVal q.end_date) = false →
      metricsHandlerAgg store q = .err 400 invalidEndBody)
    ∧ (∀ store q,
      (truthy q.start_date = false ∨ isValidDate (strVal q.start_date) = true) →
      (truthy q.end_date = false ∨ isValidDate (strVal q.end_date) = true) →
      listHandler store q ≠ .err 400 invalidStartBody
      ∧ listHandler store q ≠ .err 400 invalidEndBody
      ∧ metricsHandlerAgg store q ≠ .err 400 invalidStartBody
      ∧ metricsHandlerAgg store q ≠ .err 400 invalidEndBody) := by
  refine ⟨?_, ?_, ?_, ?_, ?_⟩
  · intro store q hf hts hvs
    exact listHandler_date_error store q _ hf (buildDateFilter_error_of_bad_start _ _ hts hvs)
  · intro store q hf hs hte hve
    exact listHandler_date_error store q _ hf (buildDateFilter_error_of_bad_end _ _ hs hte hve)
  · intro store q hf hv hts hvs
    exact metricsHandlerAgg_date_error store q _ hf hv
      (buildDateFilter_error_of_bad_start _ _ hts hvs)
  · intro store q hf hv hs hte hve
    exact metricsHandlerAgg_date_error store q _ hf hv
      (buildDateFilter_error_of_bad_end _ _ hs hte hve)
  · intro store q hs he
    have hdf := buildDateFilter_ok q.start_date q.end_date hs he
    refine ⟨?_, ?_, ?_, ?_⟩
    · intro hc
      unfold listHandler at hc
      split at hc
      · injection hc with _ hc
        exact absurd hc (by decide)
      · rw [hdf] at hc
        split at hc
        next e heq => exact Except.noConfusion heq
        next df heq =>
          simp only [] at hc
          split at hc
          · injection hc with _ hc
            exact absurd hc (by decide)
          · split at hc <;> exact ListResult.noConfusion hc
    · intro hc
      unfold listHandler at hc
      split at hc
      · injection hc with _ hc
        exact absurd hc (by decide)
      · rw [hdf] at hc
        split at hc
        next e heq => exact Except.noConfusion heq
        next df heq =>
          simp only [] at hc
          split at hc
          · injection hc with _ hc
            exact absurd hc (by decide)
          · split at hc <;> exact ListResult.noConfusion hc
    · intro hc
      unfold metricsHandlerAgg at hc
      split at hc
      · injection hc with _ hc
        exact absurd hc (by decide)
      · split at hc
        · injection hc with _ hc
          exact absurd hc (by decide)
        · rw [hdf] at hc
          split at hc
          next e heq => exact Except.noConfusion heq
          next df heq =>
            simp only [] at hc
            split at hc
            · injection hc with _ hc
              exact absurd hc (by decide)
            · exact MetricsResult.noConfusion hc
    · intro hc
      unfold metricsHandlerAgg at hc
      split at hc
      · injection hc with _ hc
        exact absurd hc (by decide)
      · split at hc
        · injection hc with _ hc
          exact absurd hc (by decide)
        · rw [hdf] at hc
          split at hc
          next e heq => exact Except.noConfusion heq
          next df heq =>
            simp only [] at hc
            split at hc
            · injection hc with _ hc
              exact absurd hc (by decide)
            · exact MetricsResult.noConfusion hc

theorem c5_date_validation_witness :
    listHandler [] ⟨none, some "2025-99-99", none⟩ = .err 400 invalidStartBody
    ∧ listHandler [] ⟨none, some "2025-01-01", some "bad"⟩ = .err 400 invalidEndBody
    ∧ metricsHandlerAgg [] ⟨some "temperature", none, some "2025-02-30"⟩ =
        .err 400 invalidEndBody
    ∧ listHandler [] ⟨none, some "2025-01-01", some "2025-01-02"⟩ ≠ .err 400 invalidStartBody :=
  ⟨c5_date_validation.1 [] ⟨none, some "2025-99-99", none⟩ (Or.inl rfl) (by decide) (by decide),
   c5_date_validation.2.1 [] ⟨none, some "2025-01-01", some "bad"⟩ (Or.inl rfl)
     (Or.inr (by decide)) (by decide) (by decide),
   c5_date_validation.2.2.2.1 [] ⟨some "temperature", none, some "2025-02-30"⟩ (by decide)
     (by decide) (Or.inl rfl) (by decide) (by decide),
   (c5_date_validation.2.2.2.2 [] ⟨none, some "2025-01-01", some "2025-01-02"⟩
     (Or.inr (by decide)) (Or.inr (by decide))).1⟩

end WeatherService
